import Mathlib

/-!
Shallow embedding of the FTL capability-dispatch core: the monad concept and
its four derivation strategies (include/ftl/concepts/monad.h) and the functor
concept (include/ftl/concepts/functor.h).

A C++ "family" `M_` together with its re-parametrisation `U ↦ M<U>` is
modelled as a type function `M : Type u → Type u`; `concept_parameter<M<T>>`
is the `T` in `M T`.  A `monad<M_>` specialisation is modelled as a structure
value bundling the family-wide method table; the primary (unspecialised)
`monad<M_>` template, which only carries `instance = false`, is modelled by
`none : Option (ftl.monad M)`.  The `enable_if<Monad<M_>()>` guards of the
operator layer become `Prop`-valued hypotheses of the operator definitions.
-/

universe u v

namespace ftl

/-- Method table of a `monad<M_>` specialisation (monad.h, interface described
at lines 109–209).  `inst` models the `static constexpr bool instance` flag,
which every specialisation must set itself. -/
structure monad (M : Type u → Type u) where
  inst : Bool
  pure : ∀ {T : Type u}, T → M T
  map : ∀ {T U : Type u}, (T → U) → M T → M U
  apply : ∀ {T U : Type u}, M (T → U) → M T → M U
  bind : ∀ {T U : Type u}, M T → (T → M U) → M U
  join : ∀ {T : Type u}, M (M T) → M T

/-- The `instance` flag of the primary, unspecialised `monad<M_>` template
(monad.h line 117): `static constexpr bool instance = false;`. -/
def monad.defaultInstance : Bool := false

/-- Resolution of `monad<M_>::instance` for a family: `none` means no
specialisation exists, so the primary template's flag answers. -/
def instanceFlag {M : Type u → Type u} : Option (monad M) → Bool
  | none => monad.defaultInstance
  | some d => d.inst

/-- `Monad<M>()` (monad.h lines 231–234): returns `monad<M>::instance`. -/
def Monad {M : Type u → Type u} (D : Option (monad M)) : Bool :=
  instanceFlag D

/-- Resolve the method table of a family known to satisfy `Monad<M>()`; the
unspecialised case is impossible under the guard. -/
def getOps {M : Type u → Type u} : (D : Option (monad M)) → Monad D = true → monad M
  | some d, _ => d

/-- `deriving_join` (monad.h lines 260–274): inheritable `join` in terms of
the family's native `bind`, `join(m) = bind(m, id)`.  The const-reference and
r-value overloads have the same body up to `std::move` and collapse here. -/
def deriving_join {M : Type u → Type u}
    (bind : ∀ {A B : Type u}, M A → (A → M B) → M B)
    {T : Type u} (m : M (M T)) : M T :=
  bind m id

/-- `deriving_map` (monad.h lines 300–322): inheritable `map` in terms of the
family's native `bind` and `pure`:
`map(f, m) = bind(m, [f](t){ return pure(f(t)); })`.  The const-reference and
r-value overloads have the same body up to `std::move` and collapse here. -/
def deriving_map {M : Type u → Type u}
    (bind : ∀ {A B : Type u}, M A → (A → M B) → M B)
    (pure : ∀ {A : Type u}, A → M A)
    {T U : Type u} (f : T → U) (m : M T) : M U :=
  bind m (fun t => pure (f t))

/-- `deriving_bind` (monad.h lines 350–376): inheritable `bind` in terms of
the family's native `join` and `map`: `bind(m, f) = join(map(f, m))`.  The
const-reference and r-value overloads collapse here. -/
def deriving_bind {M : Type u → Type u}
    (join : ∀ {A : Type u}, M (M A) → M A)
    (map : ∀ {A B : Type u}, (A → B) → M A → M B)
    {T U : Type u} (m : M T) (f : T → M U) : M U :=
  join (map f m)

/-- `deriving_apply` (monad.h lines 402–427): inheritable `apply` in terms of
the family's native `bind` and `pure`:
`apply(f, m) = bind(f, [m](fn){ return bind(m, [fn](t){ return pure(fn(t)); }); })`. -/
def deriving_apply {M : Type u → Type u}
    (bind : ∀ {A B : Type u}, M A → (A → M B) → M B)
    (pure : ∀ {A : Type u}, A → M A)
    {T U : Type u} (mf : M (T → U)) (m : M T) : M U :=
  bind mf (fun fn => bind m (fun t => pure (fn t)))

/-- The `enable_if<Monad<M_>()>` guard of `operator>>=` (monad.h lines
451–460). -/
def bindROpEnabled {M : Type u → Type u} (D : Option (monad M)) : Prop :=
  Monad D = true

/-- `operator>>=` (monad.h lines 451–460): `m >>= f` forwards to
`monad<M_>::bind(m, f)`; selectable only when `Monad<M_>()` holds. -/
def bindROp {M : Type u → Type u} (D : Option (monad M))
    (h : bindROpEnabled D) {T U : Type u} (m : M T) (f : T → M U) : M U :=
  (getOps D h).bind m f

/-- The `enable_if<Monad<M_>()>` guard of `operator<<=` (monad.h lines
470–479). -/
def bindLOpEnabled {M : Type u → Type u} (D : Option (monad M)) : Prop :=
  Monad D = true

/-- `operator<<=` (monad.h lines 470–479): mirror of `operator>>=`, only the
argument order differs; forwards to `monad<M_>::bind(m, f)`. -/
def bindLOp {M : Type u → Type u} (D : Option (monad M))
    (h : bindLOpEnabled D) {T U : Type u} (f : T → M U) (m : M T) : M U :=
  (getOps D h).bind m f

/-- The `enable_if` guards of `operator>>` (monad.h lines 507–516):
`Monad<Mt_>()` plus the requirement that re-parametrising `Mu` to `T` gives
`Mt_` — the latter holds by construction here, both operands living in the
same family `M`. -/
def seqROpEnabled {M : Type u → Type u} (D : Option (monad M)) : Prop :=
  Monad D = true

/-- `operator>>` (monad.h lines 507–521): sequence two computations and
discard the first result, `bind(m1, [m2](const T&){ return m2; })`. -/
def seqROp {M : Type u → Type u} (D : Option (monad M))
    (h : seqROpEnabled D) {T U : Type u} (m1 : M T) (m2 : M U) : M U :=
  (getOps D h).bind m1 (fun _ => m2)

/-- The `enable_if` guards of the const-reference `operator<<` (monad.h lines
535–544): `Monad<Mt>()` plus the same-family re-parametrisation requirement,
the latter holding by construction here. -/
def seqLOpEnabled {M : Type u → Type u} (D : Option (monad M)) : Prop :=
  Monad D = true

/-- Const-reference `operator<<` (monad.h lines 535–551): sequence two
computations and return the first result re-wrapped,
`bind(m1, [m2](T t){ return bind(m2, [t](const U&){ return pure(t); }); })`. -/
def seqLOp {M : Type u → Type u} (D : Option (monad M))
    (h : seqLOpEnabled D) {T U : Type u} (m1 : M T) (m2 : M U) : M T :=
  (getOps D h).bind m1 (fun t => (getOps D h).bind m2 (fun _ => (getOps D h).pure t))

/-- The `enable_if` guards of the r-value `operator<<` (monad.h lines
553–562), identical to those of the const-reference overload. -/
def seqLRvOpEnabled {M : Type u → Type u} (D : Option (monad M)) : Prop :=
  Monad D = true

/-- R-value `operator<<` (monad.h lines 553–569).  Its body is identical to
the const-reference overload's: it names `m1` (an lvalue inside the function),
never `std::move(m1)`, so the same `bind` overload resolution applies. -/
def seqLRvOp {M : Type u → Type u} (D : Option (monad M))
    (h : seqLRvOpEnabled D) {T U : Type u} (m1 : M T) (m2 : M U) : M T :=
  (getOps D h).bind m1 (fun t => (getOps D h).bind m2 (fun _ => (getOps D h).pure t))

/-- The `enable_if<Monad<Mt>()>` guard of `liftM` (monad.h lines 580–587). -/
def liftMEnabled {M : Type u → Type u} (D : Option (monad M)) : Prop :=
  Monad D = true

/-- `liftM` (monad.h lines 580–592): lift a plain function into `M`,
`m >>= [f](const T& t){ return pure(f(t)); }`. -/
def liftM {M : Type u → Type u} (D : Option (monad M))
    (h : liftMEnabled D) {T U : Type u} (f : T → U) (m : M T) : M U :=
  bindROp D h m (fun t => (getOps D h).pure (f t))

/-- Method table of an `applicative<F_>` specialisation (applicative.h is a
dependency of the functor/monad headers; only the members the functor concept
consumes are modelled: `pure`, `map`, `apply` and the `instance` flag). -/
structure applicative (F : Type u → Type u) where
  inst : Bool
  pure : ∀ {T : Type u}, T → F T
  map : ∀ {T U : Type u}, (T → U) → F T → F U
  apply : ∀ {T U : Type u}, F (T → U) → F T → F U

/-- `functor<F_>::map`, const-reference overload (functor.h lines 110–114):
the default forwards to `applicative<F_>::map`. -/
def functorMap {F : Type u → Type u} (a : applicative F)
    {T U : Type u} (fn : T → U) (f : F T) : F U :=
  a.map fn f

/-- `functor<F_>::map`, r-value overload (functor.h lines 117–120): forwards
to `applicative<F_>::map` on the moved-from value; the move collapses here. -/
def functorMapRv {F : Type u → Type u} (a : applicative F)
    {T U : Type u} (fn : T → U) (f : F T) : F U :=
  a.map fn f

/-- `functor<F_>::instance` as the interface documents it (functor.h lines
122–128): true iff `applicative<F_>::instance` is true.  The source line 128
as written reads `applicative<F>::instance` where `F` is the member alias
template (and line 97 uses `F` before its declaration), which does not name a
type; this definition embeds the documented behaviour, with `F_`. -/
def functorInstanceDefault {F : Type u → Type u} (a : applicative F) : Bool :=
  a.inst

end ftl

/-- Modelled from the spec: the optional-value family (`ftl::maybe`, a
concrete instance outside the core headers) — `present(x)` holds a value,
`nothing` is the absent value (spec §8: `pure(x) = present(x)`,
`nothing` = absent). -/
inductive maybe (A : Type u) where
  | nothing : maybe A
  | present : A → maybe A
deriving DecidableEq, Repr

/-- Modelled from the spec: `maybe`'s native `bind` (spec §8, scenarios 3–4):
`bind(present x, f) = f x`; `bind(nothing, f) = nothing`, the left
short-circuits and `f` is never invoked. -/
def maybeBind {A B : Type u} : maybe A → (A → maybe B) → maybe B
  | maybe.nothing, _ => maybe.nothing
  | maybe.present a, f => f a

/-- Modelled from the spec: `maybe`'s `map` (spec §8, scenarios 1–2):
`map(f, present x) = present (f x)`; `map(f, nothing) = nothing`. -/
def maybeMap {A B : Type u} (f : A → B) : maybe A → maybe B
  | maybe.nothing => maybe.nothing
  | maybe.present a => maybe.present (f a)

/-- Modelled from the spec: the `monad<maybe<T>>` specialisation — `pure` is
`present`, `bind`/`map` are the native operations above, and the remaining
operations follow the derivation strategies of §3; its `instance` flag is
true. -/
def maybeMonad : ftl.monad maybe where
  inst := true
  pure := fun a => maybe.present a
  map := fun f m => maybeMap f m
  apply := fun mf m => ftl.deriving_apply (fun m f => maybeBind m f) (fun a => maybe.present a) mf m
  bind := fun m f => maybeBind m f
  join := fun m => ftl.deriving_join (fun m f => maybeBind m f) m

/-- Instrumented `maybe` bind: identical control flow to `maybeBind`, but
each invocation records the given label before any label recorded by the
continuation, so a trace lists the `bind` invocations in order. -/
def maybeBindTr {A B : Type u} (lbl : String) :
    maybe A → (A → List String × maybe B) → List String × maybe B
  | maybe.nothing, _ => ([lbl], maybe.nothing)
  | maybe.present a, f => (lbl :: (f a).1, (f a).2)

/-- The body of `operator<<` (monad.h lines 545–551) instantiated at the
optional family with the instrumented bind: the left operand's underlying
`bind` is entered first, then the right operand's, then the result is
re-wrapped with `pure`. -/
def seqLOpTraced {T U : Type u} (m1 : maybe T) (m2 : maybe U) :
    List String × maybe T :=
  maybeBindTr "bind-m1" m1 (fun t =>
    maybeBindTr "bind-m2" m2 (fun _ => ([], maybe.present t)))

-- Sanity checks: the spec-modelled optional family reproduces the concrete
-- scenarios of spec §8.
example : maybeMap (fun x => x + 1) (maybe.present 5) = maybe.present 6 := rfl
example : maybeMap (fun x : Nat => x + 1) maybe.nothing = maybe.nothing := rfl
example :
    maybeBind (maybe.present 5)
      (fun x => if x > 0 then maybe.present (x * 2) else maybe.nothing) =
    maybe.present 10 := rfl
example :
    maybeBind (maybe.nothing : maybe Nat) (fun x => maybe.present (x * 2)) =
    maybe.nothing := rfl

/-- C1: for every monad family supplying native `bind` and `pure`, the map
obtained from the derive-map-from-bind-and-pure strategy satisfies
`map(f, m) = bind(m, x ↦ pure(f(x)))`. -/
theorem deriving_map_eq_bind_pure :
    ∀ {M : Type u → Type u}
      (bind : ∀ {A B : Type u}, M A → (A → M B) → M B)
      (pure : ∀ {A : Type u}, A → M A)
      {T U : Type u} (f : T → U) (m : M T),
      ftl.deriving_map bind pure f m = bind m (fun x => pure (f x)) := by
  intros
  rfl

/-- C2: for every monad family supplying native `bind`, the join obtained
from the derive-join-from-bind strategy satisfies, on every doubly wrapped
value, `join(m) = bind(m, identity)`. -/
theorem deriving_join_eq_bind_id :
    ∀ {M : Type u → Type u}
      (bind : ∀ {A B : Type u}, M A → (A → M B) → M B)
      {T : Type u} (m : M (M T)),
      ftl.deriving_join bind m = bind m id := by
  intros
  rfl

/-- C3: for every monad family supplying native `join` and `map`, the bind
obtained from the derive-bind-from-join-and-map strategy satisfies
`bind(m, f) = join(map(f, m))`. -/
theorem deriving_bind_eq_join_map :
    ∀ {M : Type u → Type u}
      (join : ∀ {A : Type u}, M (M A) → M A)
      (map : ∀ {A B : Type u}, (A → B) → M A → M B)
      {T U : Type u} (m : M T) (f : T → M U),
      ftl.deriving_bind join map m f = join (map f m) := by
  intros
  rfl

/-- C4: for every monad family supplying native `bind` and `pure`, the apply
obtained from the derive-apply-from-bind-and-pure strategy satisfies
`apply(mf, m) = bind(mf, f ↦ bind(m, x ↦ pure(f(x))))`. -/
theorem deriving_apply_eq_nested_bind :
    ∀ {M : Type u → Type u}
      (bind : ∀ {A B : Type u}, M A → (A → M B) → M B)
      (pure : ∀ {A : Type u}, A → M A)
      {T U : Type u} (mf : M (T → U)) (m : M T),
      ftl.deriving_apply bind pure mf m =
        bind mf (fun f => bind m (fun x => pure (f x))) := by
  intros
  rfl

/-- C5: if the native `pure` and `bind` satisfy the monad left-identity,
right-identity and associativity laws, then the map produced by the
derive-map-from-bind-and-pure strategy satisfies the functor laws:
`map(identity, t) = t` and `map(compose(f, g), t) = map(f, map(g, t))`. -/
theorem deriving_map_functor_laws {M : Type u → Type u}
    (bind : ∀ {A B : Type u}, M A → (A → M B) → M B)
    (pure : ∀ {A : Type u}, A → M A)
    (lid : ∀ {A B : Type u} (x : A) (f : A → M B), bind (pure x) f = f x)
    (rid : ∀ {A : Type u} (m : M A), bind m pure = m)
    (assoc : ∀ {A B C : Type u} (m : M A) (f : A → M B) (g : B → M C),
      bind (bind m f) g = bind m (fun x => bind (f x) g)) :
    (∀ {A : Type u} (t : M A), ftl.deriving_map bind pure id t = t) ∧
    (∀ {A B C : Type u} (f : B → C) (g : A → B) (t : M A),
      ftl.deriving_map bind pure (f ∘ g) t =
        ftl.deriving_map bind pure f (ftl.deriving_map bind pure g t)) := by
  constructor
  · intro A t
    have h : ftl.deriving_map bind pure (id : A → A) t = bind t pure := rfl
    rw [h, rid]
  · intro A B C f g t
    show bind t (fun x => pure (f (g x))) =
      bind (bind t (fun x => pure (g x))) (fun y => pure (f y))
    rw [assoc]
    exact congrArg (bind t)
      (funext fun x => (lid (g x) (fun y => pure (f y))).symm)

/-- Witness for C5: the identity family with `bind m f = f m` and
`pure a = a` satisfies all three monad laws definitionally, so its derived
map fixes `42`. -/
theorem deriving_map_functor_laws_witness :
    ftl.deriving_map (M := fun A : Type => A) (fun m f => f m) (fun a => a)
      id 42 = 42 :=
  (deriving_map_functor_laws (M := fun A : Type => A) (fun m f => f m)
    (fun a => a) (fun _ _ => rfl) (fun _ => rfl) (fun _ _ _ => rfl)).1 42

/-- C6: `m1 >> m2` discards the left result and equals
`bind(m1, λ_. m2)`; for the optional family,
`present(3) >> present("a") = present("a")`. -/
theorem seqROp_spec :
    (∀ {M : Type u → Type u} (D : Option (ftl.monad M))
        (h : ftl.seqROpEnabled D) {T U : Type u} (m1 : M T) (m2 : M U),
      ftl.seqROp D h m1 m2 = (ftl.getOps D h).bind m1 (fun _ => m2)) ∧
    ftl.seqROp (some maybeMonad) rfl (maybe.present 3) (maybe.present "a") =
      maybe.present "a" := by
  refine ⟨?_, rfl⟩
  intros
  rfl

/-- Witness for C6: the general conjunct applied to the optional family at
concrete operands. -/
theorem seqROp_spec_witness :
    ftl.seqROp (some maybeMonad) rfl (maybe.present 5) (maybe.present 7) =
      (ftl.getOps (some maybeMonad) rfl).bind (maybe.present 5)
        (fun _ => maybe.present 7) :=
  seqROp_spec.1 (some maybeMonad) rfl (maybe.present 5) (maybe.present 7)

/-- C7: `m1 << m2` runs both computations in left-to-right order and returns
`m1`'s result re-wrapped: it equals `bind(m1, λt. bind(m2, λ_. pure(t)))`;
for the optional family, `present(3) << present("a") = present(3)`, and the
instrumented evaluation shows each side's underlying `bind` invoked exactly
once, left before right. -/
theorem seqLOp_spec :
    (∀ {M : Type u → Type u} (D : Option (ftl.monad M))
        (h : ftl.seqLOpEnabled D) {T U : Type u} (m1 : M T) (m2 : M U),
      ftl.seqLOp D h m1 m2 =
        (ftl.getOps D h).bind m1 (fun t =>
          (ftl.getOps D h).bind m2 (fun _ => (ftl.getOps D h).pure t))) ∧
    ftl.seqLOp (some maybeMonad) rfl (maybe.present 3) (maybe.present "a") =
      maybe.present 3 ∧
    seqLOpTraced (maybe.present 3) (maybe.present "a") =
      (["bind-m1", "bind-m2"], maybe.present 3) := by
  refine ⟨?_, rfl, rfl⟩
  intros
  rfl

/-- Witness for C7: the general conjunct applied to the optional family at
concrete operands. -/
theorem seqLOp_spec_witness :
    ftl.seqLOp (some maybeMonad) rfl (maybe.present 5) (maybe.present 7) =
      (ftl.getOps (some maybeMonad) rfl).bind (maybe.present 5) (fun t =>
        (ftl.getOps (some maybeMonad) rfl).bind (maybe.present 7)
          (fun _ => (ftl.getOps (some maybeMonad) rfl).pure t)) :=
  seqLOp_spec.1 (some maybeMonad) rfl (maybe.present 5) (maybe.present 7)

/-- C8: the part of the default functor interface that is well-formed in the
source (the two map overloads, functor.h lines 110–120) forwards to
`applicative<F_>::map`, and the instance flag as the interface documents it
(`functorInstanceDefault`) agrees with applicative's flag.  The `instance`
initialiser as actually written at functor.h line 128 names the member alias
template `F` instead of the family `F_` (as does line 97) and is ill-formed —
that is the code bug recorded for this claim. -/
theorem functor_defaults_forward :
    ∀ {F : Type u → Type u} (a : ftl.applicative F) {T U : Type u}
      (fn : T → U) (x : F T),
      ftl.functorMap a fn x = a.map fn x ∧
      ftl.functorMapRv a fn x = ftl.functorMap a fn x ∧
      ftl.functorInstanceDefault a = a.inst := by
  intros
  exact ⟨rfl, rfl, rfl⟩

/-- C9: the unspecialised monad descriptor reports `instance = false`
(`Monad<M>()` returns false), and for every family whose resolved flag is
false, the `enable_if` guard of each combinator (`>>=`, `<<=`, `>>`, `<<`
in both overloads, `liftM`) is unsatisfiable — none of the operators can be
selected for such a family. -/
theorem unspecialised_monad_excluded :
    (∀ (M : Type u → Type u), ftl.Monad (none : Option (ftl.monad M)) = false) ∧
    (∀ (M : Type u → Type u) (D : Option (ftl.monad M)), ftl.Monad D = false →
      ¬ ftl.bindROpEnabled D ∧ ¬ ftl.bindLOpEnabled D ∧
      ¬ ftl.seqROpEnabled D ∧ ¬ ftl.seqLOpEnabled D ∧
      ¬ ftl.seqLRvOpEnabled D ∧ ¬ ftl.liftMEnabled D) := by
  constructor
  · intro M
    rfl
  · intro M D hf
    have hne : ¬ (ftl.Monad D = true) := by simp [hf]
    exact ⟨hne, hne, hne, hne, hne, hne⟩

/-- Witness for C9: the identity family with no monad specialisation — the
flag resolves to false and the `>>=` guard is refutable. -/
theorem unspecialised_monad_excluded_witness :
    ftl.Monad (none : Option (ftl.monad (fun A : Type => A))) = false ∧
    ¬ ftl.bindROpEnabled (none : Option (ftl.monad (fun A : Type => A))) :=
  ⟨unspecialised_monad_excluded.1 (fun A : Type => A),
   (unspecialised_monad_excluded.2 (fun A : Type => A) none rfl).1⟩

/-- C10: the r-value overload of `operator<<` produces exactly the same
result as the const-reference overload — both bodies invoke `bind` on `m1`
as an lvalue with the same continuation. -/
theorem seqLOp_rv_eq_const :
    ∀ {M : Type u → Type u} (D : Option (ftl.monad M))
      (h : ftl.seqLRvOpEnabled D) (h2 : ftl.seqLOpEnabled D)
      {T U : Type u} (m1 : M T) (m2 : M U),
      ftl.seqLRvOp D h m1 m2 = ftl.seqLOp D h2 m1 m2 := by
  intros
  rfl

/-- Witness for C10: both overloads at the optional family on concrete
operands. -/
theorem seqLOp_rv_eq_const_witness :
    ftl.seqLRvOp (some maybeMonad) rfl (maybe.present 1) (maybe.present 2) =
      ftl.seqLOp (some maybeMonad) rfl (maybe.present 1) (maybe.present 2) :=
  seqLOp_rv_eq_const (some maybeMonad) rfl rfl
    (maybe.present 1) (maybe.present 2)
